import Mathlib

/-!
Shallow embedding of the acknowledgement-gated streaming ingestion pipeline of
`src/sources/azure_blob/mod.rs` (`AzureBlobStreamer`): the per-batch generator
built with `stream!` inside `process_blob_pack` (lines 253-285), the send /
abandon logic (lines 288-298), the acknowledgement gate (lines 300-319), and the
outer `run_streaming` loop (lines 221-243).

The pipeline's observable behaviour is captured as a trace of `Effect`s: every
metric emission, the invocation of the batch's `success_handler`, and the drop
of the local `BatchNotifier` handle appear as trace elements, in program order.
External collaborators (the deserializer, the wall clock, the downstream
delivery outcome of each forwarded event, and the point at which the output
channel closes) are oracle parameters of the definitions.
-/

/-- Raw byte row of a blob pack: one `Vec<u8>` item of the `row_stream`
(`BlobStream`, line 178). -/
abbrev Row : Type := List Nat

/-- Structured item produced by one decoder call: `deserializer_parse` returns a
sequence of `Event`s; the generator only forwards `Event::Log` (line 266) and
drops every other kind (line 277). Payloads are abstract strings. -/
inductive Item where
  | log (payload : String)
  | nonLog
  deriving DecidableEq, Repr

/-- Item kind test used by the `match event` in the generator (lines 265-280). -/
def Item.isLog : Item → Bool
  | .log _ => true
  | .nonLog => false

/-- Payload of a log item, `none` for a non-log item. -/
def Item.logPayload : Item → Option String
  | .log p => some p
  | .nonLog => none

/-- Event as yielded downstream: a log payload stamped with the
`ingest_timestamp` metadata field inserted by `insert_source_metadata`
(lines 267-273). -/
structure DecodedEvent where
  payload : String
  ingest_timestamp : String
  deriving DecidableEq, Repr

/-- Modelled from the spec: per-event delivery outcome reported by the Output
Sink's downstream for one event attached to the batch notifier (the
`EventStatus` of vector-lib, which is not under `src/`). An event dropped by
the source before forwarding resolves as `dropped`. -/
inductive EventStatus where
  | delivered
  | errored
  | rejected
  | dropped
  deriving DecidableEq, Repr

/-- Terminal status of a whole batch, `BatchStatus` of vector-lib
(`Delivered` / `Errored` / `Rejected`), matched on at lines 306-316. -/
inductive BatchStatus where
  | delivered
  | errored
  | rejected
  deriving DecidableEq, Repr

/-- Modelled from the spec: the BatchNotifier (vector-lib, not under `src/`)
aggregates the fates of all events attached to one Batch into a single terminal
DeliveryStatus; error and reject outcomes dominate delivery, and an event that
was dropped before being forwarded leaves the aggregate unchanged (the spec:
such an item "does not count toward the Batch's event total"). -/
def BatchStatus.update (s : BatchStatus) (e : EventStatus) : BatchStatus :=
  match s, e with
  | .errored, _ => .errored
  | _, .errored => .errored
  | .rejected, _ => .rejected
  | _, .rejected => .rejected
  | s, _ => s

/-- Observable side effects of the streamer, in program order: the metric
emissions of the generator (lines 256, 274, 278), the modelled decode-failure
diagnostic of `deserializer_parse`, the send-failure diagnostic (line 293), the
drop of the local notifier handle (`drop(batch)`, line 284, or the drop of the
abandoned stream at the early return, line 294), the acknowledgement-gate
counters (lines 308-315) and the `success_handler` invocation (lines 302, 307). -/
inductive Effect where
  | bytesReceived (n : Nat)
  | decoderDeserializeError
  | eventsReceived (n : Nat)
  | invalidRowEventType
  | streamClosedError (n : Nat)
  | finalizeNotifier
  | queueMessageProcessingSucceeded
  | queueMessageProcessingErrored
  | queueMessageProcessingRejected
  | successHandler
  deriving DecidableEq, Repr

/-- Effects that the decode/tag generator itself can produce (lines 253-282). -/
def isGenEffect : Effect → Bool
  | .bytesReceived _ => true
  | .decoderDeserializeError => true
  | .eventsReceived _ => true
  | .invalidRowEventType => true
  | _ => false

/-- Test for a `bytesReceived` emission; one is emitted per row pulled from the
row stream (line 256), so counting them counts the rows consumed. -/
def isBytesReceived : Effect → Bool
  | .bytesReceived _ => true
  | _ => false

/-- Test for an `eventsReceived` emission, which immediately precedes a `yield`
of one event to the sink (lines 274-275). -/
def isYield : Effect → Bool
  | .eventsReceived _ => true
  | _ => false

/-- Number of occurrences of one effect in a trace. -/
def countEff (e : Effect) : List Effect → Nat
  | [] => 0
  | x :: rest => (if x = e then 1 else 0) + countEff e rest

/-- Number of rows that the generator had pulled from the row stream before the
local notifier handle was dropped (before the first `finalizeNotifier`). -/
def rowsConsumedBeforeFinalize (trace : List Effect) : Nat :=
  ((trace.takeWhile fun e => decide (e ≠ Effect.finalizeNotifier)).filter isBytesReceived).length

/-- Combined output of running the decode/tag generator over (part of) a row
stream: its effect trace, the events yielded to the sink, and the fate of every
item that had the batch notifier attached (`with_batch_notifier_option`,
line 264): `some i` when the item was yielded as the `i`-th event, `none` when
it was a non-log item dropped by the source. -/
structure GenOut where
  trace : List Effect
  events : List DecodedEvent
  fates : List (Option Nat)
  deriving DecidableEq, Repr

/-- Events built from a payload list by stamping the `i`-th payload with the
clock reading taken at its stamping step (index `y + i` of the clock oracle),
exactly how `chrono::Utc::now().to_rfc3339()` is read once per yielded event
(line 272). -/
def stampAll (c : Nat → String) : List String → Nat → List DecodedEvent
  | [], _ => []
  | p :: rest, y => ⟨p, c y⟩ :: stampAll c rest (y + 1)

/-- Inner `for mut event in events.into_iter()` loop of the generator
(lines 263-281): each item gets the notifier attached; a log item is stamped,
counted by `events_received` and yielded; any other item emits
`InvalidRowEventType` and is dropped. `y` is the index of the next yield. -/
def processItems (c : Nat → String) : List Item → Nat → GenOut
  | [], _ => ⟨[], [], []⟩
  | .log p :: rest, y =>
    let r := processItems c rest (y + 1)
    ⟨Effect.eventsReceived 1 :: r.trace, ⟨p, c y⟩ :: r.events, some y :: r.fates⟩
  | .nonLog :: rest, y =>
    let r := processItems c rest y
    ⟨Effect.invalidRowEventType :: r.trace, r.events, none :: r.fates⟩

/-- Outer `while let Some(row) = row_stream.next().await` loop of the generator
(lines 255-282): per row, emit `bytes_received`, call the decoder (the
`decoderDeserializeError` diagnostic on failure is modelled from the spec:
"On failure: drop the Record, emit a diagnostic counter, continue" — the
emission itself lives in `Decoder::deserializer_parse`, outside `src/`), and on
success run the item loop. `y` is the index of the next yield. -/
def processRowsAux (d : Row → Option (List Item)) (c : Nat → String) :
    List Row → Nat → GenOut
  | [], _ => ⟨[], [], []⟩
  | row :: rest, y =>
    match d row with
    | none =>
      let r := processRowsAux d c rest y
      ⟨Effect.bytesReceived row.length :: Effect.decoderDeserializeError :: r.trace,
        r.events, r.fates⟩
    | some items =>
      let ri := processItems c items y
      let rr := processRowsAux d c rest (y + ri.events.length)
      ⟨Effect.bytesReceived row.length :: (ri.trace ++ rr.trace),
        ri.events ++ rr.events, ri.fates ++ rr.fates⟩

/-- All structured items the decoder yields over a whole row list (a decode
failure contributes no items). -/
def decodedItems (d : Row → Option (List Item)) : List Row → List Item
  | [] => []
  | row :: rest => (d row).getD [] ++ decodedItems d rest

/-- Trace of a partial generator run, cut at the suspension point of the `n`-th
yield: when `send_event_stream` fails on the `n`-th pulled event, the generator
has emitted everything up to and including that event's `eventsReceived` and is
then dropped. -/
def takeUntilYields : List Effect → Nat → List Effect
  | [], _ => []
  | e :: rest, n =>
    if isYield e then
      if n ≤ 1 then [e] else e :: takeUntilYields rest (n - 1)
    else
      e :: takeUntilYields rest n

/-- Modelled from the spec: folding the downstream fates of a batch's events
into the terminal DeliveryStatus delivered by the notifier's receiver. -/
def statusFold (ds : Nat → EventStatus) (s : BatchStatus) (fates : List (Option Nat)) :
    BatchStatus :=
  fates.foldl (fun a f => a.update (match f with | some i => ds i | none => .dropped)) s

/-- Modelled from the spec: terminal DeliveryStatus the receiver resolves to,
given the downstream outcome `ds i` of the `i`-th yielded event; a batch with
no resolved events is vacuously `delivered`. -/
def batchStatusOf (ds : Nat → EventStatus) (fates : List (Option Nat)) : BatchStatus :=
  statusFold ds .delivered fates

/-- Status fold expressed over consecutive yield indices `y, y+1, ...` only —
the form showing that only yielded events influence the terminal status. -/
def statusFoldIdx (ds : Nat → EventStatus) (s : BatchStatus) : Nat → Nat → BatchStatus
  | _, 0 => s
  | y, n + 1 => statusFoldIdx ds (s.update (ds y)) (y + 1) n

/-- One unit of upstream work (`BlobPack`, lines 180-183): a row stream; the
`success_handler` is abstract and its invocation is recorded as the
`successHandler` trace effect. -/
structure BlobPack where
  rows : List Row
  deriving DecidableEq, Repr

/-- Oracle for the external collaborators of one `process_blob_pack` call:
`sendFailAfter = some k` means the output channel is closed and
`send_event_stream` fails when sending the event pulled after `k` successful
sends (`none`: the whole stream is accepted); `downstream i` is the delivery
outcome the sink's downstream reports for the `i`-th yielded event; `clock i`
is the `chrono::Utc::now().to_rfc3339()` reading at the `i`-th stamping. -/
structure Env where
  sendFailAfter : Option Nat
  downstream : Nat → EventStatus
  clock : Nat → String

/-- Whether `self.out.send_event_stream(&mut output_stream)` (line 289) fails,
given the total number of events the generator would yield. -/
def sendFails (env : Env) (numEvents : Nat) : Bool :=
  match env.sendFailAfter with
  | none => false
  | some k => decide (k < numEvents)

/-- Modelled from the spec: `BatchNotifier::maybe_new_with_receiver(acknowledge)`
(line 246, vector-lib) returns a receiver exactly when acknowledgement tracking
is enabled; the receiver resolves to the batch's terminal DeliveryStatus. -/
def BatchNotifier.maybe_new_with_receiver (acknowledge : Bool) (status : BatchStatus) :
    Option BatchStatus :=
  if acknowledge then some status else none

/-- Acknowledgement gate, `match receiver` (lines 301-319): with no receiver the
`success_handler` runs unconditionally; with a receiver it runs exactly on
`Delivered` (followed by the success counter), while `Errored` and `Rejected`
only emit their counters. -/
def ackGate : Option BatchStatus → List Effect
  | none => [Effect.successHandler]
  | some BatchStatus.delivered =>
      [Effect.successHandler, Effect.queueMessageProcessingSucceeded]
  | some BatchStatus.errored => [Effect.queueMessageProcessingErrored]
  | some BatchStatus.rejected => [Effect.queueMessageProcessingRejected]

/-- `AzureBlobStreamer::process_blob_pack` (lines 245-322). On the
successful-send path the generator runs to completion (dropping the notifier
handle after the row stream is drained, line 284) and the acknowledgement gate
runs; on send failure the partially-run generator is dropped at the early
return (line 294) — which drops the captured notifier handle — after
`StreamClosedError` is emitted with `output_stream.size_hint().0`, which is `0`
for an `async_stream` generator. Both paths return `Ok(())`. -/
def process_blob_pack (d : Row → Option (List Item)) (env : Env) (acknowledge : Bool)
    (pack : BlobPack) : List Effect × Except Unit Unit :=
  let g := processRowsAux d env.clock pack.rows 0
  match env.sendFailAfter with
  | some k =>
    if k < g.events.length then
      (takeUntilYields g.trace (k + 1) ++
        [Effect.streamClosedError 0, Effect.finalizeNotifier], Except.ok ())
    else
      (g.trace ++ Effect.finalizeNotifier ::
        ackGate (BatchNotifier.maybe_new_with_receiver acknowledge
          (batchStatusOf env.downstream g.fates)), Except.ok ())
  | none =>
      (g.trace ++ Effect.finalizeNotifier ::
        ackGate (BatchNotifier.maybe_new_with_receiver acknowledge
          (batchStatusOf env.downstream g.fates)), Except.ok ())

/-- Winner of the `select!` race of one outer-loop iteration (lines 225-239):
either `blob_stream.next()` is taken or the shutdown branch is taken. -/
inductive RaceWinner where
  | pack
  | shutdown
  deriving DecidableEq, Repr

/-- `AzureBlobStreamer::run_streaming` loop body (lines 224-240): at iteration
`i`, if the shutdown branch wins the race the loop breaks; otherwise the next
blob pack is processed to completion with the `?` on its result (line 229)
before the next iteration. With the upstream stream exhausted both race
outcomes break the loop with no further effect (lines 231-234 and 236-238), so
the exhausted case is a single equation. -/
def run_streaming_aux (d : Row → Option (List Item)) (acknowledge : Bool)
    (envs : Nat → Env) (race : Nat → RaceWinner) :
    List BlobPack → Nat → List Effect × Except Unit Unit
  | [], _ => ([], Except.ok ())
  | p :: rest, i =>
    match race i with
    | .shutdown => ([], Except.ok ())
    | .pack =>
      match process_blob_pack d (envs i) acknowledge p with
      | (t, Except.error e) => (t, Except.error e)
      | (t, Except.ok _) =>
        let r := run_streaming_aux d acknowledge envs race rest (i + 1)
        (t ++ r.1, r.2)

/-- `AzureBlobStreamer::run_streaming` (lines 221-243): the outer loop starting
at iteration `0`, over the whole upstream blob-pack sequence. -/
def run_streaming (d : Row → Option (List Item)) (acknowledge : Bool)
    (envs : Nat → Env) (race : Nat → RaceWinner) (packs : List BlobPack) :
    List Effect × Except Unit Unit :=
  run_streaming_aux d acknowledge envs race packs 0

/-- Number of packs the outer loop processes before terminating: it stops at
the first iteration whose race the shutdown branch wins, or at stream end. -/
def stopCount (race : Nat → RaceWinner) : Nat → Nat → Nat
  | 0, _ => 0
  | n + 1, i =>
    match race i with
    | .shutdown => 0
    | .pack => stopCount race n (i + 1) + 1

/-- Concatenation of the complete `process_blob_pack` traces of the first `n`
packs, starting at iteration `i`. -/
def processedTrace (d : Row → Option (List Item)) (acknowledge : Bool)
    (envs : Nat → Env) : List BlobPack → Nat → Nat → List Effect
  | _, 0, _ => []
  | [], _ + 1, _ => []
  | p :: rest, n + 1, i =>
      (process_blob_pack d (envs i) acknowledge p).1 ++
        processedTrace d acknowledge envs rest n (i + 1)

/-- A row is well formed for decoder `d` when it decodes to exactly one
log-shaped event. -/
def isWellFormed (d : Row → Option (List Item)) (row : Row) : Bool :=
  match d row with
  | some [Item.log _] => true
  | _ => false

/-- Framing configuration variants of `FramingConfig` relevant to the streamer
construction (line 211). -/
inductive FramingConfig where
  | bytes
  | characterDelimited (delimiter : Nat)
  | lengthDelimited
  | newlineDelimited (max_length : Option Nat)
  deriving DecidableEq, Repr

/-- Opaque stand-in for the user-supplied `DeserializerConfig` passed to
`AzureBlobStreamer::new` as `decoding`. -/
inductive DeserializerConfig where
  | bytes
  | json
  | native
  deriving DecidableEq, Repr

/-- Configuration-visible state of `AzureBlobStreamer` as built by `new`
(lines 198-219): the acknowledgement flag and the framing the decoder is built
with. -/
structure AzureBlobStreamer where
  acknowledge : Bool
  framing : FramingConfig
  decoding : DeserializerConfig
  deriving DecidableEq, Repr

/-- `AzureBlobStreamer::new` (lines 198-219): the decoder is always built with
`FramingConfig::NewlineDelimited` and `max_length: None` (lines 211-213),
whatever `decoding` is. -/
def AzureBlobStreamer.new (acknowledge : Bool) (decoding : DeserializerConfig) :
    AzureBlobStreamer :=
  ⟨acknowledge, FramingConfig.newlineDelimited none, decoding⟩

/-- Concrete decoder oracle for witnesses: the row `[9]` is malformed, every
other row decodes to one log item. -/
def decoder0 (r : Row) : Option (List Item) :=
  if r = [9] then none else some [Item.log "x"]

/-- Concrete clock oracle for witnesses. -/
def clock0 (i : Nat) : String := toString i

/-- Environment in which the send call succeeds and downstream delivers
every event. -/
def envOk : Env := ⟨none, fun _ => EventStatus.delivered, clock0⟩

/-- Environment in which the output channel is closed from the start: the very
first send fails. -/
def envFail : Env := ⟨some 0, fun _ => EventStatus.delivered, clock0⟩

/-- Per-iteration environments: the channel is closed during the first pack and
open afterwards. -/
def envsMix (i : Nat) : Env := if i = 0 then envFail else envOk

/-- Race oracle where the pack branch always wins. -/
def raceAllPacks (_ : Nat) : RaceWinner := RaceWinner.pack

/-- Race oracle where the shutdown branch wins immediately. -/
def raceShut (_ : Nat) : RaceWinner := RaceWinner.shutdown

/-- One-row pack. -/
def pack1 : BlobPack := ⟨[[0]]⟩

/-- Two-row pack, both rows well formed for `decoder0`. -/
def pack2 : BlobPack := ⟨[[0], [1]]⟩

/-- Three-row pack, all rows well formed for `decoder0`. -/
def pack3 : BlobPack := ⟨[[0], [1], [2]]⟩

/-- Empty pack (zero rows). -/
def packEmpty : BlobPack := ⟨[]⟩

/-- Pack with three well-formed rows and one malformed row interleaved. -/
def packMix : BlobPack := ⟨[[0], [1], [9], [2]]⟩

/-! ### Basic lemmas about traces and status folds -/

lemma countEff_nil (e : Effect) : countEff e [] = 0 := rfl

lemma countEff_cons (e x : Effect) (l : List Effect) :
    countEff e (x :: l) = (if x = e then 1 else 0) + countEff e l := rfl

lemma countEff_append (e : Effect) (l1 l2 : List Effect) :
    countEff e (l1 ++ l2) = countEff e l1 + countEff e l2 := by
  induction l1 with
  | nil => simp [countEff]
  | cons x rest ih => simp [countEff, ih, Nat.add_assoc]

lemma countEff_eq_zero_of_forall_ne (e : Effect) (l : List Effect)
    (h : ∀ x ∈ l, x ≠ e) : countEff e l = 0 := by
  induction l with
  | nil => rfl
  | cons x rest ih =>
    have hx : x ≠ e := h x (List.mem_cons_self x rest)
    simp [countEff, hx, ih fun y hy => h y (List.mem_cons_of_mem x hy)]

lemma BatchStatus.update_dropped (s : BatchStatus) :
    BatchStatus.update s EventStatus.dropped = s := by
  cases s <;> rfl

lemma statusFold_nil (ds : Nat → EventStatus) (s : BatchStatus) :
    statusFold ds s [] = s := rfl

lemma statusFold_cons (ds : Nat → EventStatus) (s : BatchStatus) (f : Option Nat)
    (l : List (Option Nat)) :
    statusFold ds s (f :: l) =
      statusFold ds (s.update (match f with | some i => ds i | none => .dropped)) l := rfl

lemma statusFold_append (ds : Nat → EventStatus) (s : BatchStatus)
    (l1 l2 : List (Option Nat)) :
    statusFold ds s (l1 ++ l2) = statusFold ds (statusFold ds s l1) l2 := by
  simp [statusFold, List.foldl_append]

lemma statusFoldIdx_add (ds : Nat → EventStatus) :
    ∀ (n1 : Nat) (s : BatchStatus) (y n2 : Nat),
      statusFoldIdx ds (statusFoldIdx ds s y n1) (y + n1) n2 =
        statusFoldIdx ds s y (n1 + n2) := by
  intro n1
  induction n1 with
  | zero => intro s y n2; simp [statusFoldIdx]
  | succ m ih =>
    intro s y n2
    have h1 : statusFoldIdx ds s y (m + 1) = statusFoldIdx ds (s.update (ds y)) (y + 1) m := rfl
    have h2 : statusFoldIdx ds s y (m + 1 + n2) =
        statusFoldIdx ds (s.update (ds y)) (y + 1) (m + n2) := by
      have : m + 1 + n2 = (m + n2) + 1 := by omega
      rw [this]; rfl
    rw [h1, h2, ← ih (s.update (ds y)) (y + 1) n2]
    have : y + (m + 1) = (y + 1) + m := by omega
    rw [this]

lemma stampAll_length (c : Nat → String) :
    ∀ (ps : List String) (y : Nat), (stampAll c ps y).length = ps.length := by
  intro ps
  induction ps with
  | nil => intro y; rfl
  | cons p rest ih => intro y; simp [stampAll, ih]

lemma stampAll_append (c : Nat → String) :
    ∀ (a b : List String) (y : Nat),
      stampAll c (a ++ b) y = stampAll c a y ++ stampAll c b (y + a.length) := by
  intro a
  induction a with
  | nil => intro b y; simp [stampAll]
  | cons p rest ih =>
    intro b y
    simp only [List.cons_append, stampAll, List.length_cons, List.append_eq]
    rw [show y + (rest.length + 1) = (y + 1) + rest.length from by omega, ih b (y + 1)]

lemma stampAll_get (c : Nat → String) :
    ∀ (ps : List String) (y i : Nat) (h : i < (stampAll c ps y).length),
      ((stampAll c ps y).get ⟨i, h⟩).ingest_timestamp = c (y + i) := by
  intro ps
  induction ps with
  | nil => intro y i h; simp [stampAll] at h
  | cons p rest ih =>
    intro y i h
    cases i with
    | zero => simp [stampAll]
    | succ j =>
      have hj : j < (stampAll c rest (y + 1)).length := by
        simpa [stampAll] using h
      have := ih (y + 1) j hj
      simp only [stampAll, List.get_cons_succ]
      rw [this]
      congr 1
      omega

/-! ### Lemmas about the item loop -/

lemma processItems_trace_gen (c : Nat → String) :
    ∀ (items : List Item) (y : Nat),
      ∀ e ∈ (processItems c items y).trace, isGenEffect e = true := by
  intro items
  induction items with
  | nil => intro y e he; simp [processItems] at he
  | cons it rest ih =>
    intro y e he
    cases it with
    | log p =>
      simp only [processItems, List.mem_cons] at he
      rcases he with h | h
      · subst h; rfl
      · exact ih (y + 1) e h
    | nonLog =>
      simp only [processItems, List.mem_cons] at he
      rcases he with h | h
      · subst h; rfl
      · exact ih y e h

lemma processItems_events (c : Nat → String) :
    ∀ (items : List Item) (y : Nat),
      (processItems c items y).events = stampAll c (items.filterMap Item.logPayload) y := by
  intro items
  induction items with
  | nil => intro y; rfl
  | cons it rest ih =>
    intro y
    cases it with
    | log p => simp [processItems, stampAll, ih, Item.logPayload, List.filterMap_cons]
    | nonLog => simp [processItems, ih, Item.logPayload, List.filterMap_cons]

lemma processItems_events_length (c : Nat → String) (items : List Item) (y : Nat) :
    (processItems c items y).events.length = (items.filterMap Item.logPayload).length := by
  rw [processItems_events, stampAll_length]

lemma processItems_invalid_count (c : Nat → String) :
    ∀ (items : List Item) (y : Nat),
      countEff Effect.invalidRowEventType (processItems c items y).trace =
        (items.filter fun i => ! Item.isLog i).length := by
  intro items
  induction items with
  | nil => intro y; rfl
  | cons it rest ih =>
    intro y
    cases it with
    | log p => simp [processItems, countEff, ih, Item.isLog, List.filter_cons]
    | nonLog =>
      simp only [processItems, countEff, ih, Item.isLog, List.filter_cons,
        Bool.not_false, if_pos, List.length_cons]
      omega

lemma processItems_status (c : Nat → String) (ds : Nat → EventStatus) :
    ∀ (items : List Item) (s : BatchStatus) (y : Nat),
      statusFold ds s (processItems c items y).fates =
        statusFoldIdx ds s y (items.filterMap Item.logPayload).length := by
  intro items
  induction items with
  | nil => intro s y; rfl
  | cons it rest ih =>
    intro s y
    cases it with
    | log p =>
      simp only [processItems, statusFold_cons, Item.logPayload, List.filterMap_cons,
        List.length_cons]
      rw [ih]
      rfl
    | nonLog =>
      simp only [processItems, statusFold_cons, Item.logPayload, List.filterMap_cons]
      rw [BatchStatus.update_dropped, ih]

/-! ### Lemmas about the row loop -/

lemma processRowsAux_trace_gen (d : Row → Option (List Item)) (c : Nat → String) :
    ∀ (rows : List Row) (y : Nat),
      ∀ e ∈ (processRowsAux d c rows y).trace, isGenEffect e = true := by
  intro rows
  induction rows with
  | nil => intro y e he; simp [processRowsAux] at he
  | cons row rest ih =>
    intro y e he
    cases hd : d row with
    | none =>
      simp only [processRowsAux, hd, List.mem_cons] at he
      rcases he with h | h | h
      · subst h; rfl
      · subst h; rfl
      · exact ih y e h
    | some items =>
      simp only [processRowsAux, hd, List.mem_cons, List.mem_append] at he
      rcases he with h | h | h
      · subst h; rfl
      · exact processItems_trace_gen c items y e h
      · exact ih _ e h

lemma processRowsAux_events (d : Row → Option (List Item)) (c : Nat → String) :
    ∀ (rows : List Row) (y : Nat),
      (processRowsAux d c rows y).events =
        stampAll c ((decodedItems d rows).filterMap Item.logPayload) y := by
  intro rows
  induction rows with
  | nil => intro y; rfl
  | cons row rest ih =>
    intro y
    cases hd : d row with
    | none => simp [processRowsAux, hd, decodedItems, ih]
    | some items =>
      simp only [processRowsAux, hd, decodedItems, Option.getD_some, List.filterMap_append,
        stampAll_append, List.append_eq]
      rw [processItems_events, ih, stampAll_length]

lemma processRowsAux_events_length (d : Row → Option (List Item)) (c : Nat → String)
    (rows : List Row) (y : Nat) :
    (processRowsAux d c rows y).events.length =
      ((decodedItems d rows).filterMap Item.logPayload).length := by
  rw [processRowsAux_events, stampAll_length]

lemma processRowsAux_invalid_count (d : Row → Option (List Item)) (c : Nat → String) :
    ∀ (rows : List Row) (y : Nat),
      countEff Effect.invalidRowEventType (processRowsAux d c rows y).trace =
        ((decodedItems d rows).filter fun i => ! Item.isLog i).length := by
  intro rows
  induction rows with
  | nil => intro y; rfl
  | cons row rest ih =>
    intro y
    cases hd : d row with
    | none => simp [processRowsAux, hd, decodedItems, countEff, ih]
    | some items =>
      simp only [processRowsAux, hd, decodedItems, Option.getD_some, List.filter_append,
        List.length_append, countEff_cons, countEff_append]
      rw [processItems_invalid_count, ih]
      simp

lemma processItems_no_bytes (c : Nat → String) :
    ∀ (items : List Item) (y : Nat),
      (processItems c items y).trace.filter isBytesReceived = [] := by
  intro items
  induction items with
  | nil => intro y; rfl
  | cons it rest ih =>
    intro y
    cases it with
    | log p => simp [processItems, List.filter_cons, isBytesReceived, ih]
    | nonLog => simp [processItems, List.filter_cons, isBytesReceived, ih]

lemma processRowsAux_bytes_count (d : Row → Option (List Item)) (c : Nat → String) :
    ∀ (rows : List Row) (y : Nat),
      ((processRowsAux d c rows y).trace.filter isBytesReceived).length = rows.length := by
  intro rows
  induction rows with
  | nil => intro y; rfl
  | cons row rest ih =>
    intro y
    cases hd : d row with
    | none => simp [processRowsAux, hd, isBytesReceived, List.filter_cons, ih]
    | some items =>
      simp [processRowsAux, hd, isBytesReceived, List.filter_cons, List.filter_append,
        processItems_no_bytes, ih]

lemma processRowsAux_status (d : Row → Option (List Item)) (c : Nat → String)
    (ds : Nat → EventStatus) :
    ∀ (rows : List Row) (s : BatchStatus) (y : Nat),
      statusFold ds s (processRowsAux d c rows y).fates =
        statusFoldIdx ds s y ((decodedItems d rows).filterMap Item.logPayload).length := by
  intro rows
  induction rows with
  | nil => intro s y; rfl
  | cons row rest ih =>
    intro s y
    cases hd : d row with
    | none => simp [processRowsAux, hd, decodedItems, ih]
    | some items =>
      simp only [processRowsAux, hd, decodedItems, Option.getD_some,
        List.filterMap_append, List.length_append, statusFold_append]
      rw [processItems_status, ih, processItems_events_length, statusFoldIdx_add]

lemma processRowsAux_append (d : Row → Option (List Item)) (c : Nat → String) :
    ∀ (xs ys : List Row) (y : Nat),
      processRowsAux d c (xs ++ ys) y =
        ⟨(processRowsAux d c xs y).trace ++
            (processRowsAux d c ys (y + (processRowsAux d c xs y).events.length)).trace,
          (processRowsAux d c xs y).events ++
            (processRowsAux d c ys (y + (processRowsAux d c xs y).events.length)).events,
          (processRowsAux d c xs y).fates ++
            (processRowsAux d c ys (y + (processRowsAux d c xs y).events.length)).fates⟩ := by
  intro xs
  induction xs with
  | nil => intro ys y; simp [processRowsAux]
  | cons row rest ih =>
    intro ys y
    cases hd : d row with
    | none =>
      simp only [List.cons_append, processRowsAux, hd, List.append_eq, ih]
    | some items =>
      simp only [List.cons_append, processRowsAux, hd, List.append_eq, ih,
        List.length_append, List.append_assoc, Nat.add_assoc]

/-! ### Lemmas about the abandoned-stream cut, the gate and the loop -/

lemma mem_takeUntilYields :
    ∀ (l : List Effect) (n : Nat) (x : Effect), x ∈ takeUntilYields l n → x ∈ l := by
  intro l
  induction l with
  | nil => intro n x h; simp [takeUntilYields] at h
  | cons e rest ih =>
    intro n x h
    by_cases hy : isYield e = true
    · by_cases hn : n ≤ 1
      · simp only [takeUntilYields, hy, if_pos, hn, if_true, List.mem_singleton] at h
        subst h; exact List.mem_cons_self _ _
      · simp only [takeUntilYields, hy, if_pos, hn, if_false, List.mem_cons] at h
        rcases h with h | h
        · subst h; exact List.mem_cons_self _ _
        · exact List.mem_cons_of_mem _ (ih (n - 1) x h)
    · simp only [takeUntilYields, hy, if_neg, Bool.false_eq_true, if_false,
        List.mem_cons] at h
      rcases h with h | h
      · subst h; exact List.mem_cons_self _ _
      · exact List.mem_cons_of_mem _ (ih n x h)

lemma takeWhile_append_all (p : Effect → Bool) :
    ∀ (l1 l2 : List Effect), (∀ x ∈ l1, p x = true) →
      (l1 ++ l2).takeWhile p = l1 ++ l2.takeWhile p := by
  intro l1
  induction l1 with
  | nil => intro l2 _; rfl
  | cons x rest ih =>
    intro l2 h
    have hx : p x = true := h x (List.mem_cons_self x rest)
    simp only [List.cons_append, List.takeWhile_cons, hx, if_true]
    rw [ih l2 fun y hy => h y (List.mem_cons_of_mem x hy)]

lemma ackGate_handler_le_one (r : Option BatchStatus) :
    countEff Effect.successHandler (ackGate r) ≤ 1 := by
  cases r with
  | none => simp [ackGate, countEff]
  | some s => cases s <;> simp [ackGate, countEff]

lemma ackGate_all_gate (r : Option BatchStatus) :
    ∀ e ∈ ackGate r, isGenEffect e = false ∧ e ≠ Effect.finalizeNotifier := by
  intro e he
  cases r with
  | none =>
    simp only [ackGate, List.mem_singleton] at he
    subst he
    exact ⟨rfl, by decide⟩
  | some s =>
    cases s with
    | delivered =>
      simp only [ackGate, List.mem_cons, List.mem_singleton, List.not_mem_nil,
        or_false] at he
      rcases he with h | h <;> subst h <;> exact ⟨rfl, by decide⟩
    | errored =>
      simp only [ackGate, List.mem_singleton] at he
      subst he
      exact ⟨rfl, by decide⟩
    | rejected =>
      simp only [ackGate, List.mem_singleton] at he
      subst he
      exact ⟨rfl, by decide⟩

lemma gen_handler_count (d : Row → Option (List Item)) (c : Nat → String)
    (rows : List Row) (y : Nat) :
    countEff Effect.successHandler (processRowsAux d c rows y).trace = 0 := by
  apply countEff_eq_zero_of_forall_ne
  intro x hx
  have hg := processRowsAux_trace_gen d c rows y x hx
  intro he
  subst he
  simp [isGenEffect] at hg

lemma gen_no_finalize (d : Row → Option (List Item)) (c : Nat → String)
    (rows : List Row) (y : Nat) :
    ∀ x ∈ (processRowsAux d c rows y).trace, x ≠ Effect.finalizeNotifier := by
  intro x hx he
  have hg := processRowsAux_trace_gen d c rows y x hx
  subst he
  simp [isGenEffect] at hg

lemma process_blob_pack_ok (d : Row → Option (List Item)) (env : Env)
    (acknowledge : Bool) (pack : BlobPack) :
    (process_blob_pack d env acknowledge pack).2 = Except.ok () := by
  unfold process_blob_pack
  cases env.sendFailAfter with
  | none => rfl
  | some k =>
    by_cases h : k < (processRowsAux d env.clock pack.rows 0).events.length <;>
      simp [h]

lemma process_blob_pack_sendOk (d : Row → Option (List Item)) (env : Env)
    (acknowledge : Bool) (pack : BlobPack)
    (hsend : sendFails env (processRowsAux d env.clock pack.rows 0).events.length = false) :
    (process_blob_pack d env acknowledge pack).1 =
      (processRowsAux d env.clock pack.rows 0).trace ++ Effect.finalizeNotifier ::
        ackGate (BatchNotifier.maybe_new_with_receiver acknowledge
          (batchStatusOf env.downstream (processRowsAux d env.clock pack.rows 0).fates)) := by
  unfold process_blob_pack
  cases hs : env.sendFailAfter with
  | none => rfl
  | some k =>
    unfold sendFails at hsend
    rw [hs] at hsend
    simp only [decide_eq_false_iff_not] at hsend
    simp [hsend]

lemma process_blob_pack_sendFail (d : Row → Option (List Item)) (env : Env)
    (acknowledge : Bool) (pack : BlobPack) (k : Nat)
    (hk : env.sendFailAfter = some k)
    (hfail : k < (processRowsAux d env.clock pack.rows 0).events.length) :
    (process_blob_pack d env acknowledge pack).1 =
      takeUntilYields (processRowsAux d env.clock pack.rows 0).trace (k + 1) ++
        [Effect.streamClosedError 0, Effect.finalizeNotifier] := by
  unfold process_blob_pack
  rw [hk]
  simp [hfail]

lemma run_streaming_aux_ok (d : Row → Option (List Item)) (acknowledge : Bool)
    (envs : Nat → Env) (race : Nat → RaceWinner) :
    ∀ (packs : List BlobPack) (i : Nat),
      (run_streaming_aux d acknowledge envs race packs i).2 = Except.ok () := by
  intro packs
  induction packs with
  | nil => intro i; rfl
  | cons p rest ih =>
    intro i
    cases hr : race i with
    | shutdown => simp [run_streaming_aux, hr]
    | pack =>
      have hok := process_blob_pack_ok d (envs i) acknowledge p
      cases hp : process_blob_pack d (envs i) acknowledge p with
      | mk t r =>
        rw [hp] at hok
        simp only at hok
        subst hok
        simp only [run_streaming_aux, hr, hp]
        exact ih (i + 1)

lemma run_streaming_aux_trace (d : Row → Option (List Item)) (acknowledge : Bool)
    (envs : Nat → Env) (race : Nat → RaceWinner) :
    ∀ (packs : List BlobPack) (i : Nat),
      (run_streaming_aux d acknowledge envs race packs i).1 =
        processedTrace d acknowledge envs packs (stopCount race packs.length i) i := by
  intro packs
  induction packs with
  | nil => intro i; rfl
  | cons p rest ih =>
    intro i
    cases hr : race i with
    | shutdown => simp [run_streaming_aux, stopCount, hr, processedTrace]
    | pack =>
      have hok := process_blob_pack_ok d (envs i) acknowledge p
      cases hp : process_blob_pack d (envs i) acknowledge p with
      | mk t r =>
        rw [hp] at hok
        simp only at hok
        subst hok
        simp only [run_streaming_aux, hr, hp, List.length_cons, stopCount, processedTrace]
        rw [ih (i + 1)]

/-! ### Claim theorems -/

lemma sendOk_handler_count (d : Row → Option (List Item)) (env : Env)
    (acknowledge : Bool) (pack : BlobPack)
    (hsend : sendFails env (processRowsAux d env.clock pack.rows 0).events.length = false) :
    countEff Effect.successHandler (process_blob_pack d env acknowledge pack).1 =
      countEff Effect.successHandler
        (ackGate (BatchNotifier.maybe_new_with_receiver acknowledge
          (batchStatusOf env.downstream (processRowsAux d env.clock pack.rows 0).fates))) := by
  rw [process_blob_pack_sendOk d env acknowledge pack hsend, countEff_append,
    gen_handler_count, countEff_cons]
  simp

/-- C1: over every acknowledgement setting, send outcome and terminal
DeliveryStatus, one `process_blob_pack` execution invokes the batch's
`success_handler` at most once: its trace never contains more than one
`successHandler` effect. -/
theorem success_handler_at_most_once (d : Row → Option (List Item)) (env : Env)
    (acknowledge : Bool) (pack : BlobPack) :
    countEff Effect.successHandler (process_blob_pack d env acknowledge pack).1 ≤ 1 := by
  cases hs : env.sendFailAfter with
  | some k =>
    by_cases hk : k < (processRowsAux d env.clock pack.rows 0).events.length
    · rw [process_blob_pack_sendFail d env acknowledge pack k hs hk, countEff_append]
      have h1 : countEff Effect.successHandler
          (takeUntilYields (processRowsAux d env.clock pack.rows 0).trace (k + 1)) = 0 := by
        apply countEff_eq_zero_of_forall_ne
        intro x hx heq
        have hmem := mem_takeUntilYields _ _ _ hx
        have hg := processRowsAux_trace_gen d env.clock pack.rows 0 x hmem
        subst heq
        simp [isGenEffect] at hg
      rw [h1]
      simp [countEff]
    · have hsend : sendFails env (processRowsAux d env.clock pack.rows 0).events.length
          = false := by
        simp [sendFails, hs, hk]
      rw [sendOk_handler_count d env acknowledge pack hsend]
      exact ackGate_handler_le_one _
  | none =>
    have hsend : sendFails env (processRowsAux d env.clock pack.rows 0).events.length
        = false := by
      simp [sendFails, hs]
    rw [sendOk_handler_count d env acknowledge pack hsend]
    exact ackGate_handler_le_one _

/-- C2: for a batch whose `send_event_stream` call succeeds, the gate behaves
per `match receiver` (lines 301-319): with acknowledgement disabled the
`success_handler` runs immediately after the generator finishes; with
acknowledgement enabled it runs (exactly once, with the success counter)
precisely when the terminal status is `Delivered`, and an `Errored` or
`Rejected` status only emits the corresponding counter with no handler call. -/
theorem ack_gate_callback_policy (d : Row → Option (List Item)) (env : Env)
    (pack : BlobPack)
    (hsend : sendFails env (processRowsAux d env.clock pack.rows 0).events.length = false) :
    (process_blob_pack d env false pack).1 =
      (processRowsAux d env.clock pack.rows 0).trace ++
        [Effect.finalizeNotifier, Effect.successHandler] ∧
    (batchStatusOf env.downstream (processRowsAux d env.clock pack.rows 0).fates =
        BatchStatus.delivered →
      countEff Effect.successHandler (process_blob_pack d env true pack).1 = 1 ∧
      Effect.queueMessageProcessingSucceeded ∈ (process_blob_pack d env true pack).1) ∧
    (batchStatusOf env.downstream (processRowsAux d env.clock pack.rows 0).fates =
        BatchStatus.errored →
      countEff Effect.successHandler (process_blob_pack d env true pack).1 = 0 ∧
      Effect.queueMessageProcessingErrored ∈ (process_blob_pack d env true pack).1) ∧
    (batchStatusOf env.downstream (processRowsAux d env.clock pack.rows 0).fates =
        BatchStatus.rejected →
      countEff Effect.successHandler (process_blob_pack d env true pack).1 = 0 ∧
      Effect.queueMessageProcessingRejected ∈ (process_blob_pack d env true pack).1) := by
  refine ⟨?_, ?_, ?_, ?_⟩
  · rw [process_blob_pack_sendOk d env false pack hsend]
    rfl
  · intro hst
    rw [sendOk_handler_count d env true pack hsend,
      process_blob_pack_sendOk d env true pack hsend]
    unfold BatchNotifier.maybe_new_with_receiver
    rw [hst]
    exact ⟨rfl, by simp [ackGate]⟩
  · intro hst
    rw [sendOk_handler_count d env true pack hsend,
      process_blob_pack_sendOk d env true pack hsend]
    unfold BatchNotifier.maybe_new_with_receiver
    rw [hst]
    exact ⟨rfl, by simp [ackGate]⟩
  · intro hst
    rw [sendOk_handler_count d env true pack hsend,
      process_blob_pack_sendOk d env true pack hsend]
    unfold BatchNotifier.maybe_new_with_receiver
    rw [hst]
    exact ⟨rfl, by simp [ackGate]⟩

/-- Witness for C2 at a concrete input: the send succeeds on `pack2` and the
acknowledgement-disabled trace ends with the immediate handler invocation. -/
theorem ack_gate_callback_policy_witness :
    sendFails envOk (processRowsAux decoder0 envOk.clock pack2.rows 0).events.length
        = false ∧
    (process_blob_pack decoder0 envOk false pack2).1 =
      (processRowsAux decoder0 envOk.clock pack2.rows 0).trace ++
        [Effect.finalizeNotifier, Effect.successHandler] :=
  ⟨rfl, (ack_gate_callback_policy decoder0 envOk pack2 rfl).1⟩

/-- C6: the outer loop's trace is the concatenation of the complete
`process_blob_pack` traces of exactly the packs pulled before the first
iteration whose race the shutdown branch wins (every in-flight batch runs to
its terminal state — shutdown is never consulted inside `process_blob_pack`);
if the shutdown branch wins the very first race, no batch is pulled at all. -/
theorem shutdown_between_batches (d : Row → Option (List Item)) (acknowledge : Bool)
    (envs : Nat → Env) (race : Nat → RaceWinner) (packs : List BlobPack) :
    (run_streaming d acknowledge envs race packs).1 =
      processedTrace d acknowledge envs packs (stopCount race packs.length 0) 0 ∧
    (race 0 = RaceWinner.shutdown → (run_streaming d acknowledge envs race packs).1 = []) := by
  constructor
  · exact run_streaming_aux_trace d acknowledge envs race packs 0
  · intro hr
    cases packs with
    | nil => rfl
    | cons p rest => simp [run_streaming, run_streaming_aux, hr]

/-- Witness for C6 at a concrete input: with the shutdown branch winning the
first race, the loop over one pending pack produces no effects. -/
theorem shutdown_between_batches_witness :
    raceShut 0 = RaceWinner.shutdown ∧
      (run_streaming decoder0 true envsMix raceShut [pack1]).1 = [] :=
  ⟨rfl, (shutdown_between_batches decoder0 true envsMix raceShut [pack1]).2 rfl⟩

/-- C9: the `Result<(), ()>` of `run_streaming` and of `process_blob_pack` is
always `Ok(())` — the error variant is unreachable for every decoder, oracle
environment, race schedule and pack sequence, so the `?` at line 229 never
propagates an error and the built source task never takes its error branch. -/
theorem run_streaming_never_errors (d : Row → Option (List Item)) (acknowledge : Bool)
    (envs : Nat → Env) (race : Nat → RaceWinner) (packs : List BlobPack)
    (env : Env) (pack : BlobPack) :
    (run_streaming d acknowledge envs race packs).2 = Except.ok () ∧
    (process_blob_pack d env acknowledge pack).2 = Except.ok () :=
  ⟨run_streaming_aux_ok d acknowledge envs race packs 0,
    process_blob_pack_ok d env acknowledge pack⟩

lemma logPayload_length (items : List Item) :
    (items.filterMap Item.logPayload).length = (items.filter Item.isLog).length := by
  induction items with
  | nil => rfl
  | cons it rest ih =>
    cases it with
    | log p => simp [List.filterMap_cons, List.filter_cons, Item.logPayload, Item.isLog, ih]
    | nonLog => simp [List.filterMap_cons, List.filter_cons, Item.logPayload, Item.isLog, ih]

lemma isWellFormed_iff (d : Row → Option (List Item)) (row : Row) :
    isWellFormed d row = true ↔ ∃ p, d row = some [Item.log p] := by
  cases hd : d row with
  | none => simp [isWellFormed, hd]
  | some items =>
    cases items with
    | nil => simp [isWellFormed, hd]
    | cons it its =>
      cases it with
      | log p =>
        cases its with
        | nil => simp [isWellFormed, hd]
        | cons x xs => simp [isWellFormed, hd]
      | nonLog => simp [isWellFormed, hd]

lemma wellFormed_logPayload_length (d : Row → Option (List Item)) :
    ∀ rows : List Row, (∀ row ∈ rows, isWellFormed d row = true ∨ d row = none) →
      ((decodedItems d rows).filterMap Item.logPayload).length =
        (rows.filter (isWellFormed d)).length := by
  intro rows
  induction rows with
  | nil => intro _; rfl
  | cons row rest ih =>
    intro h
    have hrest := ih fun r hr => h r (List.mem_cons_of_mem _ hr)
    rcases h row (List.mem_cons_self _ _) with hw | hn
    · rcases (isWellFormed_iff d row).mp hw with ⟨p, hd⟩
      simp [decodedItems, hd, List.filterMap_cons, Item.logPayload, List.filter_cons, hw,
        hrest]
    · have hw : isWellFormed d row = false := by simp [isWellFormed, hn]
      simp [decodedItems, hn, List.filter_cons, hw, hrest]

lemma get_timestamp_of_events_eq (c : Nat → String) (l : List DecodedEvent)
    (ps : List String) (h : l = stampAll c ps 0) :
    ∀ (i : Nat) (hi : i < l.length), (l.get ⟨i, hi⟩).ingest_timestamp = c i := by
  subst h
  intro i hi
  have hg := stampAll_get c ps 0 i hi
  simpa using hg

/-- C3 (code bug evidence): a three-event batch whose first send fails. The
emitted `StreamClosedError` carries count `0` — `output_stream.size_hint().0`
of the generator, which is always zero — although 3 decodable events exist and
none of them was delivered; the handler is never invoked, the call still
returns `Ok(())`, and the outer loop continues to the next pack, which is
processed to `Delivered` and invokes its handler once. -/
theorem send_failure_stream_closed_count :
    (process_blob_pack decoder0 envFail true pack3).1 =
      [Effect.bytesReceived 1, Effect.eventsReceived 1,
        Effect.streamClosedError 0, Effect.finalizeNotifier] ∧
    (processRowsAux decoder0 envFail.clock pack3.rows 0).events.length = 3 ∧
    (process_blob_pack decoder0 envFail true pack3).2 = Except.ok () ∧
    countEff Effect.successHandler (process_blob_pack decoder0 envFail true pack3).1 = 0 ∧
    countEff Effect.successHandler
      (run_streaming decoder0 true envsMix raceAllPacks [pack3, pack1]).1 = 1 := by
  refine ⟨?_, ?_, ?_, ?_, ?_⟩ <;> rfl

/-- C4: a record whose decode fails is dropped and the batch continues: the
yielded events and attached-item fates are exactly those of the same batch with
the malformed row removed, exactly one extra decode diagnostic is emitted, and
processing the batch still returns `Ok` — the failure is local and non-fatal,
and every later well-formed record is still decoded and forwarded. -/
theorem decode_failure_local_nonfatal (d : Row → Option (List Item)) (c : Nat → String)
    (pre post : List Row) (bad : Row) (hbad : d bad = none) :
    (processRowsAux d c (pre ++ bad :: post) 0).events =
      (processRowsAux d c (pre ++ post) 0).events ∧
    (processRowsAux d c (pre ++ bad :: post) 0).fates =
      (processRowsAux d c (pre ++ post) 0).fates ∧
    countEff Effect.decoderDeserializeError
        (processRowsAux d c (pre ++ bad :: post) 0).trace =
      countEff Effect.decoderDeserializeError (processRowsAux d c (pre ++ post) 0).trace
        + 1 ∧
    (∀ (env : Env) (acknowledge : Bool),
      (process_blob_pack d env acknowledge ⟨pre ++ bad :: post⟩).2 = Except.ok ()) := by
  have hsplit1 := processRowsAux_append d c pre (bad :: post) 0
  have hsplit2 := processRowsAux_append d c pre post 0
  have hbadrow : processRowsAux d c (bad :: post)
      (0 + (processRowsAux d c pre 0).events.length) =
      ⟨Effect.bytesReceived bad.length :: Effect.decoderDeserializeError ::
          (processRowsAux d c post (0 + (processRowsAux d c pre 0).events.length)).trace,
        (processRowsAux d c post (0 + (processRowsAux d c pre 0).events.length)).events,
        (processRowsAux d c post (0 + (processRowsAux d c pre 0).events.length)).fates⟩ := by
    simp [processRowsAux, hbad]
  refine ⟨?_, ?_, ?_, fun env acknowledge => process_blob_pack_ok d env acknowledge _⟩
  · rw [hsplit1, hsplit2, hbadrow]
  · rw [hsplit1, hsplit2, hbadrow]
  · rw [hsplit1, hsplit2, hbadrow]
    simp only [countEff_append, countEff_cons]
    simp [countEff]
    omega

/-- Witness for C4 at a concrete input: dropping the malformed middle row
leaves the yielded events of the surrounding rows unchanged. -/
theorem decode_failure_local_nonfatal_witness :
    decoder0 [9] = none ∧
    (processRowsAux decoder0 clock0 ([[0]] ++ [9] :: [[1]]) 0).events =
      (processRowsAux decoder0 clock0 ([[0]] ++ [[1]]) 0).events :=
  ⟨rfl, (decode_failure_local_nonfatal decoder0 clock0 [[0]] [[1]] [9] rfl).1⟩

/-- C5: a decoded item that is not a log event emits the distinct
`InvalidRowEventType` diagnostic (one per non-log item), is never among the
yielded events (which are exactly the stamped log payloads), does not count
toward the batch's event total, and the terminal DeliveryStatus is a function
of the yielded events' downstream outcomes alone. -/
theorem invalid_event_kind_dropped (d : Row → Option (List Item)) (c : Nat → String)
    (ds : Nat → EventStatus) (rows : List Row) :
    countEff Effect.invalidRowEventType (processRowsAux d c rows 0).trace =
      ((decodedItems d rows).filter fun i => ! Item.isLog i).length ∧
    (processRowsAux d c rows 0).events =
      stampAll c ((decodedItems d rows).filterMap Item.logPayload) 0 ∧
    (processRowsAux d c rows 0).events.length =
      ((decodedItems d rows).filter Item.isLog).length ∧
    batchStatusOf ds (processRowsAux d c rows 0).fates =
      statusFoldIdx ds BatchStatus.delivered 0 (processRowsAux d c rows 0).events.length := by
  refine ⟨processRowsAux_invalid_count d c rows 0, processRowsAux_events d c rows 0, ?_, ?_⟩
  · rw [processRowsAux_events_length, logPayload_length]
  · rw [processRowsAux_events_length]
    exact processRowsAux_status d c ds rows BatchStatus.delivered 0

/-- C7: for a batch of well-formed records (one log item each) and malformed
records interleaved arbitrarily, exactly one event per well-formed record is
yielded, the `i`-th yielded event is stamped with the clock reading of its
stamping step, and — with acknowledgement enabled and a successful send — the
handler fires exactly once whenever the terminal status is `Delivered`. -/
theorem well_formed_rows_yield_and_deliver (d : Row → Option (List Item)) (env : Env)
    (rows : List Row)
    (hrows : ∀ row ∈ rows, isWellFormed d row = true ∨ d row = none)
    (hsend : sendFails env (processRowsAux d env.clock rows 0).events.length = false) :
    (processRowsAux d env.clock rows 0).events.length =
      (rows.filter (isWellFormed d)).length ∧
    (∀ (i : Nat) (hi : i < (processRowsAux d env.clock rows 0).events.length),
      ((processRowsAux d env.clock rows 0).events.get ⟨i, hi⟩).ingest_timestamp =
        env.clock i) ∧
    (batchStatusOf env.downstream (processRowsAux d env.clock rows 0).fates =
        BatchStatus.delivered →
      countEff Effect.successHandler (process_blob_pack d env true ⟨rows⟩).1 = 1) := by
  refine ⟨?_, ?_, ?_⟩
  · rw [processRowsAux_events_length, wellFormed_logPayload_length d rows hrows]
  · exact get_timestamp_of_events_eq env.clock _ _ (processRowsAux_events d env.clock rows 0)
  · intro hst
    rw [sendOk_handler_count d env true ⟨rows⟩ hsend]
    show countEff Effect.successHandler
      (ackGate (BatchNotifier.maybe_new_with_receiver true
        (batchStatusOf env.downstream (processRowsAux d env.clock rows 0).fates))) = 1
    simp [BatchNotifier.maybe_new_with_receiver, hst, ackGate, countEff]

/-- Witness for C7 at a concrete input: three well-formed rows and one
malformed row yield exactly three events. -/
theorem well_formed_rows_yield_and_deliver_witness :
    (∀ row ∈ packMix.rows, isWellFormed decoder0 row = true ∨ decoder0 row = none) ∧
    (processRowsAux decoder0 envOk.clock packMix.rows 0).events.length =
      (packMix.rows.filter (isWellFormed decoder0)).length :=
  ⟨by decide,
    (well_formed_rows_yield_and_deliver decoder0 envOk packMix.rows (by decide) rfl).1⟩

/-- C8 counterexample: with the output channel closed from the start and a
two-row pack, the abandoned stream is dropped — finalizing the local notifier
handle — after only one row was pulled, so the notifier is finalized strictly
before the row sequence is drained, contradicting the claim's "never before
all Records have been consumed". -/
theorem notifier_early_finalize_on_send_failure :
    Effect.finalizeNotifier ∈ (process_blob_pack decoder0 envFail true pack2).1 ∧
    rowsConsumedBeforeFinalize (process_blob_pack decoder0 envFail true pack2).1 = 1 ∧
    pack2.rows.length = 2 ∧
    rowsConsumedBeforeFinalize (process_blob_pack decoder0 envFail true pack2).1 ≠
      pack2.rows.length := by
  refine ⟨?_, ?_, ?_, ?_⟩ <;> decide

/-- C8 as amended: on every successful-send execution the notifier handle is
dropped exactly once, and only after all rows were pulled from the row stream;
in particular an empty batch finalizes immediately with no events, its receiver
resolves to the vacuous `Delivered` status, and with acknowledgement enabled
the handler still runs. -/
theorem notifier_finalize_after_drain_on_success (d : Row → Option (List Item))
    (env : Env) (acknowledge : Bool) (pack : BlobPack)
    (hsend : sendFails env (processRowsAux d env.clock pack.rows 0).events.length = false) :
    rowsConsumedBeforeFinalize (process_blob_pack d env acknowledge pack).1 =
      pack.rows.length ∧
    countEff Effect.finalizeNotifier (process_blob_pack d env acknowledge pack).1 = 1 ∧
    (pack.rows = [] →
      batchStatusOf env.downstream (processRowsAux d env.clock pack.rows 0).fates =
        BatchStatus.delivered ∧
      (process_blob_pack d env true pack).1 =
        [Effect.finalizeNotifier, Effect.successHandler,
          Effect.queueMessageProcessingSucceeded]) := by
  have hall : ∀ x ∈ (processRowsAux d env.clock pack.rows 0).trace,
      (fun e => decide (e ≠ Effect.finalizeNotifier)) x = true := by
    intro x hx
    have hne := gen_no_finalize d env.clock pack.rows 0 x hx
    simpa using hne
  refine ⟨?_, ?_, ?_⟩
  · rw [process_blob_pack_sendOk d env acknowledge pack hsend]
    unfold rowsConsumedBeforeFinalize
    rw [takeWhile_append_all _ _ _ hall]
    have htw : (Effect.finalizeNotifier ::
        ackGate (BatchNotifier.maybe_new_with_receiver acknowledge
          (batchStatusOf env.downstream
            (processRowsAux d env.clock pack.rows 0).fates))).takeWhile
        (fun e => decide (e ≠ Effect.finalizeNotifier)) = [] := rfl
    rw [htw, List.filter_append]
    simp [processRowsAux_bytes_count]
  · rw [process_blob_pack_sendOk d env acknowledge pack hsend, countEff_append]
    have h0 : countEff Effect.finalizeNotifier
        (processRowsAux d env.clock pack.rows 0).trace = 0 :=
      countEff_eq_zero_of_forall_ne _ _ (gen_no_finalize d env.clock pack.rows 0)
    have h1 : countEff Effect.finalizeNotifier
        (ackGate (BatchNotifier.maybe_new_with_receiver acknowledge
          (batchStatusOf env.downstream (processRowsAux d env.clock pack.rows 0).fates)))
        = 0 :=
      countEff_eq_zero_of_forall_ne _ _ fun x hx => (ackGate_all_gate _ x hx).2
    rw [h0, countEff_cons, h1]
    simp
  · intro hnil
    have hsend1 : sendFails env (processRowsAux d env.clock pack.rows 0).events.length
        = false := hsend
    constructor
    · rw [hnil]
      rfl
    · rw [process_blob_pack_sendOk d env true pack hsend1, hnil]
      rfl

/-- Witness for C8's amended statement at a concrete input: an empty batch
finalizes its notifier with zero rows consumed. -/
theorem notifier_finalize_after_drain_on_success_witness :
    sendFails envOk (processRowsAux decoder0 envOk.clock packEmpty.rows 0).events.length
        = false ∧
    rowsConsumedBeforeFinalize (process_blob_pack decoder0 envOk true packEmpty).1 =
      packEmpty.rows.length :=
  ⟨rfl, (notifier_finalize_after_drain_on_success decoder0 envOk true packEmpty rfl).1⟩

/-- Construction fact of `AzureBlobStreamer::new` (lines 210-215): the decoder
is built with newline-delimited framing and `max_length: None` for every
user-supplied deserializer configuration. Whether that framing is ever applied
to a row is decided by `Decoder::deserializer_parse`, which is outside the
embedded source. -/
lemma new_framing_newline_delimited (acknowledge : Bool) (decoding : DeserializerConfig) :
    (AzureBlobStreamer.new acknowledge decoding).framing =
      FramingConfig.newlineDelimited none := rfl
